import Mathlib

/-
Verification of the RP2040 VGA scanout driver (`src/vga.c`, header `vga.h`).

The driver is embedded shallowly:

* RAM is byte-addressed, modelled as `Nat → Nat` with every stored value
  reduced mod 256 (the DMA engine here moves 8-bit units).
* A one-byte-per-transfer DMA run is the recursive function `dma_run_bytes`,
  parametrised by the channel's read-increment / write-increment flags,
  exactly the knobs `dma_memset` and `dma_memcpy` set in `vga.c`.
* The DMA channel-configuration registers, the events performed by
  `VGA_initDisplay`, and the chained scanout pair are modelled further below.
-/

/-- Store one byte: the DMA write of value `v` to address `a` (8-bit transfer,
so the stored cell holds `v % 256`). -/
def writeByte (mem : Nat → Nat) (a v : Nat) : Nat → Nat :=
  fun x => if x = a then v % 256 else mem x

/-- Run a DMA channel doing `n` one-byte transfers starting at read address
`r` and write address `w`; `ri`/`wi` are the channel's read-increment and
write-increment configuration flags (`channel_config_set_read_increment` /
`channel_config_set_write_increment` in `vga.c`). -/
def dma_run_bytes (ri wi : Bool) : (Nat → Nat) → Nat → Nat → Nat → (Nat → Nat)
  | mem, _, _, 0 => mem
  | mem, r, w, Nat.succ n =>
      dma_run_bytes ri wi (writeByte mem w (mem r)) (r + cond ri 1 0) (w + cond wi 1 0) n

/-- `dma_memset(dest, val, num)` from `vga.c`: the stack cell `&val` (modelled
at address `valAddr`) holds the 8-bit value, and the shared channel runs with a
fixed (non-incrementing) read address `&val` and an incrementing write address
`dest`, `num` one-byte transfers, then blocks until completion. -/
def dma_memset (mem : Nat → Nat) (dest val num valAddr : Nat) : Nat → Nat :=
  dma_run_bytes false true (writeByte mem valAddr val) valAddr dest num

/-- `dma_memcpy(dest, src, num)` from `vga.c`: incrementing read from `src`,
incrementing write to `dest`, `num` one-byte transfers, blocking. -/
def dma_memcpy (mem : Nat → Nat) (dest src num : Nat) : Nat → Nat :=
  dma_run_bytes true true mem src dest num

/-- `TXCOUNT` from `vga.h`: length of the pixel array and number of scanout
DMA transfers. -/
def TXCOUNT : Nat := 76800

/-- Color constants from `vga.h` (the `VGA_BGR` branch, which is selected by
`#define VGA_BGR 1`). -/
def BLACK : Nat := 0

def RED : Nat := 4

def GREEN : Nat := 2

def YELLOW : Nat := 6

def BLUE : Nat := 1

def MAGENTA : Nat := 5

def CYAN : Nat := 3

def WHITE : Nat := 7

/-- `VGA_fillScreen(color)` from `vga.c`: the `uint16_t` argument (hence the
`% 65536`) is packed as `(color) | (color << 3)` and handed to `dma_memset`
over the whole `vga_data_array` (`fbAddr`), whose `uint8_t` value parameter
truncates mod 256 (done inside `dma_memset`'s byte store). -/
def VGA_fillScreen (mem : Nat → Nat) (fbAddr valAddr color : Nat) : Nat → Nat :=
  dma_memset mem fbAddr ((color % 65536) ||| ((color % 65536) <<< 3)) TXCOUNT valAddr

/-- `VGA_drawFrame(src)` from `vga.c`: `dma_memcpy(vga_data_array, src, TXCOUNT)`. -/
def VGA_drawFrame (mem : Nat → Nat) (fbAddr srcAddr : Nat) : Nat → Nat :=
  dma_memcpy mem fbAddr srcAddr TXCOUNT

theorem dma_run_memset_spec (n : Nat) :
    ∀ (mem : Nat → Nat) (r w : Nat), (r < w ∨ w + n ≤ r) → ∀ a : Nat,
    ((w ≤ a ∧ a < w + n) → dma_run_bytes false true mem r w n a = mem r % 256) ∧
    (¬ (w ≤ a ∧ a < w + n) → dma_run_bytes false true mem r w n a = mem a) := by
  induction n with
  | zero =>
    intro mem r w _ a
    exact ⟨fun h => absurd h (by omega), fun _ => rfl⟩
  | succ n ih =>
    intro mem r w hdisj a
    have hrw : r ≠ w := by omega
    have hstep : dma_run_bytes false true mem r w (Nat.succ n)
        = dma_run_bytes false true (writeByte mem w (mem r)) r (w + 1) n := rfl
    have hmr : writeByte mem w (mem r) r = mem r := by
      simp [writeByte, hrw]
    have ih2 := ih (writeByte mem w (mem r)) r (w + 1) (by omega) a
    constructor
    · intro ha
      rw [hstep]
      by_cases haw : a = w
      · rw [ih2.2 (by omega)]
        subst haw
        simp [writeByte]
      · rw [ih2.1 (by omega), hmr]
    · intro ha
      rw [hstep, ih2.2 (by omega)]
      have haw : a ≠ w := by omega
      simp [writeByte, haw]

theorem dma_run_memcpy_spec (n : Nat) :
    ∀ (mem : Nat → Nat) (r w : Nat), (r + n ≤ w ∨ w + n ≤ r) → ∀ a : Nat,
    ((w ≤ a ∧ a < w + n) → dma_run_bytes true true mem r w n a = mem (r + (a - w)) % 256) ∧
    (¬ (w ≤ a ∧ a < w + n) → dma_run_bytes true true mem r w n a = mem a) := by
  induction n with
  | zero =>
    intro mem r w _ a
    exact ⟨fun h => absurd h (by omega), fun _ => rfl⟩
  | succ n ih =>
    intro mem r w hdisj a
    have hrw : r ≠ w := by omega
    have hstep : dma_run_bytes true true mem r w (Nat.succ n)
        = dma_run_bytes true true (writeByte mem w (mem r)) (r + 1) (w + 1) n := rfl
    have ih2 := ih (writeByte mem w (mem r)) (r + 1) (w + 1) (by omega) a
    constructor
    · intro ha
      rw [hstep]
      by_cases haw : a = w
      · rw [ih2.2 (by omega)]
        subst haw
        simp [writeByte]
      · rw [ih2.1 (by omega)]
        have hx : (r + 1) + (a - (w + 1)) = r + (a - w) := by omega
        have hne : r + (a - w) ≠ w := by omega
        rw [hx]
        simp [writeByte, hne]
    · intro ha
      rw [hstep, ih2.2 (by omega)]
      have haw : a ≠ w := by omega
      simp [writeByte, haw]

/-- Effect of `dma_memset` on every address: bytes of `dst[0..num)` hold
`val % 256`, every other address except the callee's own stack temporary
`&val` is untouched. -/
theorem dma_memset_spec (mem : Nat → Nat) (dest val num valAddr : Nat)
    (hdisj : valAddr < dest ∨ dest + num ≤ valAddr) (a : Nat) :
    ((dest ≤ a ∧ a < dest + num) → dma_memset mem dest val num valAddr a = val % 256) ∧
    (¬ (dest ≤ a ∧ a < dest + num) → a ≠ valAddr → dma_memset mem dest val num valAddr a = mem a) := by
  have h := dma_run_memset_spec num (writeByte mem valAddr val) valAddr dest (by omega) a
  constructor
  · intro ha
    rw [show dma_memset mem dest val num valAddr
        = dma_run_bytes false true (writeByte mem valAddr val) valAddr dest num from rfl]
    rw [h.1 ha]
    simp [writeByte]
  · intro ha hne
    rw [show dma_memset mem dest val num valAddr
        = dma_run_bytes false true (writeByte mem valAddr val) valAddr dest num from rfl]
    rw [h.2 ha]
    simp [writeByte, hne]

/-- Effect of `dma_memcpy` on every address (pre-call source values, mod 256):
assumes source and destination ranges do not overlap. -/
theorem dma_memcpy_spec (mem : Nat → Nat) (dest src num : Nat)
    (hdisj : src + num ≤ dest ∨ dest + num ≤ src) (a : Nat) :
    ((dest ≤ a ∧ a < dest + num) → dma_memcpy mem dest src num a = mem (src + (a - dest)) % 256) ∧
    (¬ (dest ≤ a ∧ a < dest + num) → dma_memcpy mem dest src num a = mem a) :=
  dma_run_memcpy_spec num mem src dest hdisj a

/-- Claim C1: after `dma_memset(dst, value, count)` returns, every byte in
`dst[0..count)` equals `value`, and every byte outside that range (other than
the callee's own stack cell holding the `value` argument) is unchanged from
its pre-call content. -/
theorem dma_memset_correct (mem : Nat → Nat) (dest val num valAddr : Nat)
    (hval : val < 256) (hdisj : valAddr < dest ∨ dest + num ≤ valAddr) (a : Nat) :
    ((dest ≤ a ∧ a < dest + num) → dma_memset mem dest val num valAddr a = val) ∧
    (¬ (dest ≤ a ∧ a < dest + num) → a ≠ valAddr → dma_memset mem dest val num valAddr a = mem a) := by
  have h := dma_memset_spec mem dest val num valAddr hdisj a
  exact ⟨fun ha => by rw [h.1 ha, Nat.mod_eq_of_lt hval], h.2⟩

theorem dma_memset_correct_witness : dma_memset (fun _ => 0) 0 7 3 5 1 = 7 :=
  (dma_memset_correct (fun _ => 0) 0 7 3 5 (by decide) (Or.inr (by decide)) 1).1 (by decide)

/-- Claim C2: after `dma_memcpy(dst, src, count)` returns (byte-valued memory,
non-overlapping source and destination), `dst[0..count)` bit-for-bit equals the
pre-call contents of `src[0..count)`, and bytes of `dst` outside `[0..count)`
are unchanged. -/
theorem dma_memcpy_correct (mem : Nat → Nat) (dest src num : Nat)
    (hbytes : ∀ x, mem x < 256) (hdisj : src + num ≤ dest ∨ dest + num ≤ src) (a : Nat) :
    ((dest ≤ a ∧ a < dest + num) → dma_memcpy mem dest src num a = mem (src + (a - dest))) ∧
    (¬ (dest ≤ a ∧ a < dest + num) → dma_memcpy mem dest src num a = mem a) := by
  have h := dma_memcpy_spec mem dest src num hdisj a
  exact ⟨fun ha => by rw [h.1 ha, Nat.mod_eq_of_lt (hbytes _)], h.2⟩

theorem dma_memcpy_correct_witness : dma_memcpy (fun x => x % 256) 0 10 3 1 = 11 :=
  (dma_memcpy_correct (fun x => x % 256) 0 10 3
    (fun x => Nat.mod_lt x (by decide)) (Or.inr (by decide)) 1).1 (by decide)

/-- Claim C3: `VGA_fillScreen c` packs a 3-bit color into the byte
`c ||| (c <<< 3)` and delegates to `dma_memset` over the whole framebuffer,
so every one of the `TXCOUNT` framebuffer bytes equals the packed byte, and a
second identical call leaves the framebuffer bytes unchanged (idempotence). -/
theorem VGA_fillScreen_correct (mem : Nat → Nat) (fbAddr valAddr color : Nat)
    (hc : color < 8) (hdisj : valAddr < fbAddr ∨ fbAddr + TXCOUNT ≤ valAddr)
    (a : Nat) (ha : fbAddr ≤ a ∧ a < fbAddr + TXCOUNT) :
    VGA_fillScreen mem fbAddr valAddr color a = color ||| (color <<< 3) ∧
    VGA_fillScreen (VGA_fillScreen mem fbAddr valAddr color) fbAddr valAddr color a
      = VGA_fillScreen mem fbAddr valAddr color a := by
  have hmod : color % 65536 = color := Nat.mod_eq_of_lt (by omega)
  have hlt : color ||| (color <<< 3) < 256 := by interval_cases color <;> decide
  have key : ∀ m : Nat → Nat, VGA_fillScreen m fbAddr valAddr color a = color ||| (color <<< 3) := by
    intro m
    have h := (dma_memset_spec m fbAddr ((color % 65536) ||| ((color % 65536) <<< 3))
      TXCOUNT valAddr hdisj a).1 ha
    rw [show VGA_fillScreen m fbAddr valAddr color
        = dma_memset m fbAddr ((color % 65536) ||| ((color % 65536) <<< 3)) TXCOUNT valAddr from rfl,
      h, hmod, Nat.mod_eq_of_lt hlt]
  exact ⟨key mem, by rw [key _, key mem]⟩

theorem VGA_fillScreen_correct_witness :
    VGA_fillScreen (fun _ => 0) 0 100000 MAGENTA 0 = MAGENTA ||| (MAGENTA <<< 3) ∧
    VGA_fillScreen (VGA_fillScreen (fun _ => 0) 0 100000 MAGENTA) 0 100000 MAGENTA 0
      = VGA_fillScreen (fun _ => 0) 0 100000 MAGENTA 0 :=
  VGA_fillScreen_correct (fun _ => 0) 0 100000 MAGENTA (by decide) (Or.inr (by decide)) 0 (by decide)

/-- Claim C10: `VGA_fillScreen` takes a 16-bit color, and the packed pattern
`color ||| (color <<< 3)` is truncated through `dma_memset`'s 8-bit value
parameter, so every framebuffer byte becomes `(color ||| (color <<< 3)) % 256`;
for 3-bit colors the pattern fits unchanged, while any `color ≥ 32` has a
packed pattern `≥ 256` whose high bits are silently discarded. -/
theorem VGA_fillScreen_truncates (mem : Nat → Nat) (fbAddr valAddr color : Nat)
    (hc : color < 65536) (hdisj : valAddr < fbAddr ∨ fbAddr + TXCOUNT ≤ valAddr)
    (a : Nat) (ha : fbAddr ≤ a ∧ a < fbAddr + TXCOUNT) :
    VGA_fillScreen mem fbAddr valAddr color a = (color ||| (color <<< 3)) % 256 ∧
    (color < 8 → (color ||| (color <<< 3)) % 256 = color ||| (color <<< 3)) ∧
    (32 ≤ color → 256 ≤ color ||| (color <<< 3)) := by
  have hmod : color % 65536 = color := Nat.mod_eq_of_lt hc
  refine ⟨?_, ?_, ?_⟩
  · have h := (dma_memset_spec mem fbAddr ((color % 65536) ||| ((color % 65536) <<< 3))
      TXCOUNT valAddr hdisj a).1 ha
    rw [show VGA_fillScreen mem fbAddr valAddr color
        = dma_memset mem fbAddr ((color % 65536) ||| ((color % 65536) <<< 3)) TXCOUNT valAddr from rfl,
      h, hmod]
  · intro h8
    have hlt : color ||| (color <<< 3) < 256 := by interval_cases color <;> decide
    exact Nat.mod_eq_of_lt hlt
  · intro h32
    have h8 : (2 : Nat) ^ 3 = 8 := by norm_num
    have h1 : 256 ≤ color <<< 3 := by rw [Nat.shiftLeft_eq, h8]; omega
    exact le_trans h1 (Nat.le_of_testBit (fun i h => by rw [Nat.testBit_or, h, Bool.or_true]))

theorem VGA_fillScreen_truncates_witness :
    VGA_fillScreen (fun _ => 0) 0 100000 300 0 = (300 ||| (300 <<< 3)) % 256 ∧
    ((300 : Nat) < 8 → (300 ||| (300 <<< 3)) % 256 = 300 ||| (300 <<< 3)) ∧
    ((32 : Nat) ≤ 300 → 256 ≤ 300 ||| (300 <<< 3)) :=
  VGA_fillScreen_truncates (fun _ => 0) 0 100000 300 (by decide) (Or.inr (by decide)) 0 (by decide)

/-- Claim C4 (amended): after `VGA_fillScreen RED` followed by
`VGA_drawFrame src` where every byte of the `TXCOUNT`-byte source holds the
packed white pattern `WHITE ||| (WHITE <<< 3)`, every framebuffer byte equals
that packed pattern — `drawFrame` with a source of exactly the fixed frame
length fully replaces the framebuffer content with the source bytes. -/
theorem VGA_drawFrame_replaces (mem : Nat → Nat) (fbAddr srcAddr valAddr : Nat)
    (hsrc : ∀ i, i < TXCOUNT → mem (srcAddr + i) = WHITE ||| (WHITE <<< 3))
    (hdisj1 : fbAddr + TXCOUNT ≤ srcAddr ∨ srcAddr + TXCOUNT ≤ fbAddr)
    (hdisj2 : valAddr < fbAddr ∨ fbAddr + TXCOUNT ≤ valAddr)
    (hdisj3 : valAddr < srcAddr ∨ srcAddr + TXCOUNT ≤ valAddr)
    (a : Nat) (ha : fbAddr ≤ a ∧ a < fbAddr + TXCOUNT) :
    VGA_drawFrame (VGA_fillScreen mem fbAddr valAddr RED) fbAddr srcAddr a
      = WHITE ||| (WHITE <<< 3) := by
  have hi : a - fbAddr < TXCOUNT := by omega
  have hout : ¬ (fbAddr ≤ srcAddr + (a - fbAddr) ∧ srcAddr + (a - fbAddr) < fbAddr + TXCOUNT) := by
    omega
  have hne : srcAddr + (a - fbAddr) ≠ valAddr := by omega
  have hs1out : VGA_fillScreen mem fbAddr valAddr RED (srcAddr + (a - fbAddr))
      = mem (srcAddr + (a - fbAddr)) :=
    (dma_memset_spec mem fbAddr ((RED % 65536) ||| ((RED % 65536) <<< 3))
      TXCOUNT valAddr hdisj2 _).2 hout hne
  rw [show VGA_drawFrame (VGA_fillScreen mem fbAddr valAddr RED) fbAddr srcAddr
      = dma_memcpy (VGA_fillScreen mem fbAddr valAddr RED) fbAddr srcAddr TXCOUNT from rfl]
  rw [(dma_memcpy_spec _ fbAddr srcAddr TXCOUNT (by omega) a).1 ha]
  rw [hs1out, hsrc _ hi]
  decide

/-- Source buffer for the claim-C4 witness: `TXCOUNT` bytes at address 100000,
each holding the packed white pattern `WHITE ||| (WHITE <<< 3) = 63`. -/
def c4memW : Nat → Nat := fun a => if 100000 ≤ a ∧ a < 176800 then 63 else 0

theorem VGA_drawFrame_replaces_witness :
    VGA_drawFrame (VGA_fillScreen c4memW 0 300000 RED) 0 100000 0 = WHITE ||| (WHITE <<< 3) :=
  VGA_drawFrame_replaces c4memW 0 100000 300000
    (fun i hi => by
      have hi2 : i < 76800 := hi
      simp only [c4memW]
      rw [if_pos (by omega)]
      decide)
    (Or.inl (by decide)) (Or.inr (by decide)) (Or.inr (by decide)) 0 (by decide)

/-- Source buffer prescribed by claim C4 as stated: `TXCOUNT` bytes at address
100000, each holding `WHITE = 0b111`. -/
def c4mem : Nat → Nat := fun a => if 100000 ≤ a ∧ a < 176800 then WHITE else 0

/-- Claim C4 counterexample: with the framebuffer at address 0 and a
76800-byte source at address 100000 whose every byte is `WHITE = 0b111` (the
input the claim prescribes), after `VGA_fillScreen RED` then `VGA_drawFrame`
the framebuffer byte at index 0 is `WHITE = 7`, not the packed white pattern
`WHITE ||| (WHITE <<< 3) = 63`: `dma_memcpy` copies source bytes verbatim and
performs no nibble packing. -/
theorem VGA_drawFrame_packed_counterexample :
    VGA_drawFrame (VGA_fillScreen c4mem 0 300000 RED) 0 100000 0 = WHITE ∧
    WHITE ≠ WHITE ||| (WHITE <<< 3) := by
  constructor
  · rw [show VGA_drawFrame (VGA_fillScreen c4mem 0 300000 RED) 0 100000
        = dma_memcpy (VGA_fillScreen c4mem 0 300000 RED) 0 100000 TXCOUNT from rfl]
    rw [(dma_memcpy_spec _ 0 100000 TXCOUNT (Or.inr (by decide)) 0).1 (by decide)]
    rw [show VGA_fillScreen c4mem 0 300000 RED
        = dma_memset c4mem 0 ((RED % 65536) ||| ((RED % 65536) <<< 3)) TXCOUNT 300000 from rfl]
    rw [(dma_memset_spec c4mem 0 ((RED % 65536) ||| ((RED % 65536) <<< 3)) TXCOUNT 300000
      (Or.inr (by decide)) (100000 + (0 - 0))).2 (by decide) (by decide)]
    decide
  · decide

/-- DMA transfer unit sizes from the SDK (`DMA_SIZE_8`, `DMA_SIZE_16`,
`DMA_SIZE_32`). -/
inductive DmaSize where
  | size8
  | size16
  | size32
  deriving DecidableEq

/-- Width in bytes of one transfer unit. -/
def DmaSize.bytes : DmaSize → Nat
  | .size8 => 1
  | .size16 => 2
  | .size32 => 4

/-- The subset of the SDK `dma_channel_config` word that `vga.c` touches. -/
structure dma_channel_config where
  transfer_data_size : DmaSize
  read_increment : Bool
  write_increment : Bool
  dreq : Nat
  chain_to : Nat
  deriving DecidableEq

/-- `DREQ_FORCE` (unpaced transfers), the SDK default. -/
def DREQ_FORCE : Nat := 63

/-- DREQ number of PIO1's TX FIFO for state machine `sm` (RP2040: PIO1 TX
DREQs are 8..11). -/
def DREQ_PIO1_TX (sm : Nat) : Nat := 8 + sm

/-- `DREQ_PIO1_TX2` from the SDK headers. -/
def DREQ_PIO1_TX2 : Nat := DREQ_PIO1_TX 2

/-- `dma_channel_get_default_config(channel)` from the SDK: 32-bit units,
read increment on, write increment off, `DREQ_FORCE` pacing, chained to the
channel itself (chain disabled). -/
def dma_channel_get_default_config (channel : Nat) : dma_channel_config :=
  { transfer_data_size := DmaSize.size32, read_increment := true, write_increment := false,
    dreq := DREQ_FORCE, chain_to := channel }

def channel_config_set_transfer_data_size (c : dma_channel_config) (sz : DmaSize) :
    dma_channel_config :=
  { c with transfer_data_size := sz }

def channel_config_set_read_increment (c : dma_channel_config) (b : Bool) : dma_channel_config :=
  { c with read_increment := b }

def channel_config_set_write_increment (c : dma_channel_config) (b : Bool) : dma_channel_config :=
  { c with write_increment := b }

def channel_config_set_dreq (c : dma_channel_config) (d : Nat) : dma_channel_config :=
  { c with dreq := d }

def channel_config_set_chain_to (c : dma_channel_config) (ch : Nat) : dma_channel_config :=
  { c with chain_to := ch }

/-- The PIO instance `VGA_initDisplay` selects (`PIO pio = pio1`). -/
def pio1 : Nat := 1

/-- State-machine numbers chosen in `VGA_initDisplay`. -/
def hsync_sm : Nat := 0

def vsync_sm : Nat := 1

def pclk_sm : Nat := 2

def rgb_sm : Nat := 3

/-- DMA channels, in the order the three `dma_claim_unused_channel(true)`
calls return them (lowest free channels first, starting from an empty
claim set). -/
def rgb_chan_0 : Nat := 0

def rgb_chan_1 : Nat := 1

def memcpy_dma_chan : Nat := 2

/-- `c0` in `VGA_initDisplay`: Channel A's configuration word, built by the
source's exact SDK-setter sequence — 8-bit transfers, read increment on,
write increment off, `DREQ_PIO1_TX2` pacing (the `pio == pio1` branch),
chained to `rgb_chan_1`. -/
def c0 : dma_channel_config :=
  channel_config_set_chain_to
    (channel_config_set_dreq
      (channel_config_set_write_increment
        (channel_config_set_read_increment
          (channel_config_set_transfer_data_size
            (dma_channel_get_default_config rgb_chan_0) DmaSize.size8)
          true)
        false)
      DREQ_PIO1_TX2)
    rgb_chan_1

/-- `c1` in `VGA_initDisplay`: Channel B's configuration word — 32-bit
transfers, no read increment, no write increment, chained to `rgb_chan_0`. -/
def c1 : dma_channel_config :=
  channel_config_set_chain_to
    (channel_config_set_write_increment
      (channel_config_set_read_increment
        (channel_config_set_transfer_data_size
          (dma_channel_get_default_config rgb_chan_1) DmaSize.size32)
        false)
      false)
    rgb_chan_0

/-- Symbolic addresses appearing in `dma_channel_configure` calls. -/
inductive Addr where
  | mem_byte (a : Nat)
  | pio_txf (pio sm : Nat)
  | ch_read_addr (chan : Nat)
  | address_pointer_cell
  deriving DecidableEq

/-- Arguments of one `dma_channel_configure` call: configuration word, write
address, read address, transfer count, and whether the call starts the
channel immediately. -/
structure ChannelFullConfig where
  cfg : dma_channel_config
  write_addr : Addr
  read_addr : Addr
  transfer_count : Nat
  started : Bool
  deriving DecidableEq

/-- The `dma_channel_configure(rgb_chan_0, &c0, &pio->txf[rgb_sm],
&vga_data_array, TXCOUNT, false)` call: write to PIO1's TX FIFO of `rgb_sm`,
read from the framebuffer at `fbAddr`, not started. -/
def rgb_chan_0_configure (fbAddr : Nat) : ChannelFullConfig :=
  { cfg := c0, write_addr := Addr.pio_txf pio1 rgb_sm, read_addr := Addr.mem_byte fbAddr,
    transfer_count := TXCOUNT, started := false }

/-- The `dma_channel_configure(rgb_chan_1, &c1, &dma_hw->ch[rgb_chan_0].read_addr,
&address_pointer, 1, false)` call. -/
def rgb_chan_1_configure : ChannelFullConfig :=
  { cfg := c1, write_addr := Addr.ch_read_addr rgb_chan_0,
    read_addr := Addr.address_pointer_cell, transfer_count := 1, started := false }

/-- The `dma_channel_configure(memcpy_dma_chan, &c, dest, &val, num, true)`
call in `dma_memset`: 8-bit units, fixed read from `&val`, incrementing write
to `dest`, started immediately. -/
def memset_configure (dest valAddr num : Nat) : ChannelFullConfig :=
  { cfg := channel_config_set_write_increment
      (channel_config_set_read_increment
        (channel_config_set_transfer_data_size
          (dma_channel_get_default_config memcpy_dma_chan) DmaSize.size8)
        false)
      true,
    write_addr := Addr.mem_byte dest, read_addr := Addr.mem_byte valAddr,
    transfer_count := num, started := true }

/-- The `dma_channel_configure(memcpy_dma_chan, &c, dest, src, num, true)`
call in `dma_memcpy`: 8-bit units, incrementing read and write, started
immediately. -/
def memcpy_configure (dest src num : Nat) : ChannelFullConfig :=
  { cfg := channel_config_set_write_increment
      (channel_config_set_read_increment
        (channel_config_set_transfer_data_size
          (dma_channel_get_default_config memcpy_dma_chan) DmaSize.size8)
        true)
      true,
    write_addr := Addr.mem_byte dest, read_addr := Addr.mem_byte src,
    transfer_count := num, started := true }

/-- Hardware-visible actions performed by the driver functions, in program
order. -/
inductive Event where
  | addProgram (prog : Nat)
  | programInit (sm pin : Nat)
  | claimChannel (chan : Nat)
  | configure (chan : Nat) (full : ChannelFullConfig)
  | smPut (sm value : Nat)
  | pioEnableMask (mask : Nat)
  | dmaStartMask (mask : Nat)
  deriving DecidableEq

/-- `H_ACTIVE` from `vga.c` (active + frontporch - 1). -/
def H_ACTIVE : Nat := 339

/-- `V_ACTIVE_PLUS_FRONT` from `vga.c`. -/
def V_ACTIVE_PLUS_FRONT : Nat := 243

/-- `RGB_ACTIVE` from `vga.c`. -/
def RGB_ACTIVE : Nat := 319

/-- The actions of `VGA_initDisplay(vsync_pin, hsync_pin, r_pin, pclk_pin)` in
source order: load the hsync, vsync and rgb programs (the pclk load is
commented out), init those three state machines, claim the three DMA
channels, configure the two scanout channels (neither started), seed the
three counters (`vsync` with the literal 239), enable the state-machine mask
— which includes `pclk_sm`'s bit although that machine was never programmed —
and finally CPU-start channel A alone. -/
def VGA_initDisplay_trace (vsync_pin hsync_pin r_pin pclk_pin fbAddr : Nat) : List Event :=
  [Event.addProgram 0, Event.addProgram 1, Event.addProgram 2,
   Event.programInit hsync_sm hsync_pin, Event.programInit vsync_sm vsync_pin,
   Event.programInit rgb_sm r_pin,
   Event.claimChannel rgb_chan_0, Event.claimChannel rgb_chan_1,
   Event.claimChannel memcpy_dma_chan,
   Event.configure rgb_chan_0 (rgb_chan_0_configure fbAddr),
   Event.configure rgb_chan_1 rgb_chan_1_configure,
   Event.smPut hsync_sm H_ACTIVE, Event.smPut vsync_sm 239, Event.smPut rgb_sm RGB_ACTIVE,
   Event.pioEnableMask
     ((1 <<< hsync_sm) ||| (1 <<< vsync_sm) ||| (1 <<< rgb_sm) ||| (1 <<< pclk_sm)),
   Event.dmaStartMask (1 <<< rgb_chan_0)]

/-- The single action of `dma_memset`: configure-and-trigger the shared bulk
channel. -/
def dma_memset_trace (dest valAddr num : Nat) : List Event :=
  [Event.configure memcpy_dma_chan (memset_configure dest valAddr num)]

/-- The single action of `dma_memcpy`: configure-and-trigger the shared bulk
channel. -/
def dma_memcpy_trace (dest src num : Nat) : List Event :=
  [Event.configure memcpy_dma_chan (memcpy_configure dest src num)]

def isPioEnable : Event → Bool
  | Event.pioEnableMask _ => true
  | _ => false

def isDmaStart : Event → Bool
  | Event.dmaStartMask _ => true
  | _ => false

def isSmPut : Event → Bool
  | Event.smPut _ _ => true
  | _ => false

/-- Does this event start DMA channel `c` directly (CPU-triggered), either by
a configure call with the trigger flag or by a start-mask write? -/
def startsChannel (c : Nat) : Event → Bool
  | Event.configure ch full => ch == c && full.started
  | Event.dmaStartMask mask => mask.testBit c
  | _ => false

/-- Claim C6 (amended): `VGA_initDisplay` configures Channel A with 1-byte
units, incrementing source, fixed destination = the rgb output generator's TX
FIFO (`pio1`, state machine `rgb_sm`), pacing DREQ = `DREQ_PIO1_TX2` — the
transmit data-request of state machine 2 (the pclk slot), not the rgb output
generator's own `DREQ_PIO1_TX rgb_sm` — transfer count `TXCOUNT`, chained to
Channel B, not started; and Channel B with 4-byte units, fixed source =
`&address_pointer`, destination = Channel A's read-address register, transfer
count 1, chained to Channel A, not started. -/
theorem VGA_initDisplay_channel_configs (fbAddr : Nat) :
    (rgb_chan_0_configure fbAddr).cfg.transfer_data_size.bytes = 1 ∧
    (rgb_chan_0_configure fbAddr).cfg.read_increment = true ∧
    (rgb_chan_0_configure fbAddr).cfg.write_increment = false ∧
    (rgb_chan_0_configure fbAddr).cfg.dreq = DREQ_PIO1_TX pclk_sm ∧
    (rgb_chan_0_configure fbAddr).cfg.chain_to = rgb_chan_1 ∧
    (rgb_chan_0_configure fbAddr).write_addr = Addr.pio_txf pio1 rgb_sm ∧
    (rgb_chan_0_configure fbAddr).read_addr = Addr.mem_byte fbAddr ∧
    (rgb_chan_0_configure fbAddr).transfer_count = TXCOUNT ∧
    (rgb_chan_0_configure fbAddr).started = false ∧
    rgb_chan_1_configure.cfg.transfer_data_size.bytes = 4 ∧
    rgb_chan_1_configure.cfg.read_increment = false ∧
    rgb_chan_1_configure.cfg.write_increment = false ∧
    rgb_chan_1_configure.cfg.chain_to = rgb_chan_0 ∧
    rgb_chan_1_configure.write_addr = Addr.ch_read_addr rgb_chan_0 ∧
    rgb_chan_1_configure.read_addr = Addr.address_pointer_cell ∧
    rgb_chan_1_configure.transfer_count = 1 ∧
    rgb_chan_1_configure.started = false :=
  ⟨rfl, rfl, rfl, rfl, rfl, rfl, rfl, rfl, rfl, rfl, rfl, rfl, rfl, rfl, rfl, rfl, rfl⟩

/-- Claim C6 counterexample: Channel A's destination FIFO belongs to state
machine `rgb_sm = 3`, yet its pacing DREQ is `DREQ_PIO1_TX2`, state machine
2's transmit request — not the pixel-output generator's own per-byte request
`DREQ_PIO1_TX rgb_sm`. The claim's pacing clause is false of the code. -/
theorem VGA_initDisplay_dreq_counterexample :
    (rgb_chan_0_configure 0).write_addr = Addr.pio_txf pio1 rgb_sm ∧
    (rgb_chan_0_configure 0).cfg.dreq = DREQ_PIO1_TX2 ∧
    (rgb_chan_0_configure 0).cfg.dreq ≠ DREQ_PIO1_TX rgb_sm :=
  ⟨rfl, rfl, by decide⟩

/-- Claim C9: `VGA_initDisplay` seeds the vsync state machine with the
literal 239 while the program's own named constant `V_ACTIVE_PLUS_FRONT`
equals 243 (and 239 ≠ 243); the hsync and rgb machines are seeded exactly
with `H_ACTIVE = 339` and `RGB_ACTIVE = 319`. -/
theorem vsync_seed_literal (v h r p f : Nat) :
    (VGA_initDisplay_trace v h r p f).filter isSmPut
      = [Event.smPut hsync_sm H_ACTIVE, Event.smPut vsync_sm 239,
         Event.smPut rgb_sm RGB_ACTIVE] ∧
    (239 : Nat) ≠ V_ACTIVE_PLUS_FRONT ∧ V_ACTIVE_PLUS_FRONT = 243 ∧
    H_ACTIVE = 339 ∧ RGB_ACTIVE = 319 :=
  ⟨rfl, by decide, rfl, rfl, rfl⟩

/-- Claim C7 (amended): in `VGA_initDisplay` the three timing generators
(hsync, vsync, rgb) are all started by the one `pio_enable_sm_mask_in_sync`
event (whose mask also carries `pclk_sm`); that enable strictly precedes the
DMA start in program order; the only channel start in `VGA_initDisplay` is
the mask naming exactly Channel A (Channel B's bit is clear, and no configure
call in init triggers a channel); and Channel B is never started directly by
any operation — the bulk-memory functions trigger only their own
`memcpy_dma_chan`, a channel distinct from both scanout channels. -/
theorem VGA_initDisplay_start_ordering (v h r p f dest valAddr src num : Nat) :
    ((VGA_initDisplay_trace v h r p f).filter isPioEnable
      = [Event.pioEnableMask
          ((1 <<< hsync_sm) ||| (1 <<< vsync_sm) ||| (1 <<< rgb_sm) ||| (1 <<< pclk_sm))]) ∧
    ((1 <<< hsync_sm) ||| (1 <<< vsync_sm) ||| (1 <<< rgb_sm) ||| (1 <<< pclk_sm)).testBit
      hsync_sm = true ∧
    ((1 <<< hsync_sm) ||| (1 <<< vsync_sm) ||| (1 <<< rgb_sm) ||| (1 <<< pclk_sm)).testBit
      vsync_sm = true ∧
    ((1 <<< hsync_sm) ||| (1 <<< vsync_sm) ||| (1 <<< rgb_sm) ||| (1 <<< pclk_sm)).testBit
      rgb_sm = true ∧
    (VGA_initDisplay_trace v h r p f).findIdx isPioEnable
      < (VGA_initDisplay_trace v h r p f).findIdx isDmaStart ∧
    ((VGA_initDisplay_trace v h r p f).filter isDmaStart
      = [Event.dmaStartMask (1 <<< rgb_chan_0)]) ∧
    (1 <<< rgb_chan_0).testBit rgb_chan_0 = true ∧
    (1 <<< rgb_chan_0).testBit rgb_chan_1 = false ∧
    ((VGA_initDisplay_trace v h r p f).all fun e => !(startsChannel rgb_chan_1 e)) = true ∧
    ((dma_memset_trace dest valAddr num).all fun e => !(startsChannel rgb_chan_1 e)) = true ∧
    ((dma_memcpy_trace dest src num).all fun e => !(startsChannel rgb_chan_1 e)) = true ∧
    ((dma_memset_trace dest valAddr num).all fun e => !(startsChannel rgb_chan_0 e)) = true ∧
    ((dma_memcpy_trace dest src num).all fun e => !(startsChannel rgb_chan_0 e)) = true := by
  have hidx1 : (VGA_initDisplay_trace v h r p f).findIdx isPioEnable = 14 := rfl
  have hidx2 : (VGA_initDisplay_trace v h r p f).findIdx isDmaStart = 15 := rfl
  refine ⟨rfl, rfl, rfl, rfl, ?_, rfl, rfl, rfl, rfl, rfl, rfl, rfl, rfl⟩
  rw [hidx1, hidx2]
  decide

/-- Claim C7 counterexample: `dma_memset` CPU-triggers the shared bulk channel
`memcpy_dma_chan` directly (its configure call carries the start flag), and
that channel is not Channel A — so Channel A is not the only transfer channel
ever started directly by the CPU, refuting the claim as stated. -/
theorem VGA_initDisplay_start_counterexample :
    ((dma_memset_trace 0 500 10).any fun e => startsChannel memcpy_dma_chan e) = true ∧
    memcpy_dma_chan ≠ rgb_chan_0 :=
  ⟨rfl, by decide⟩

/-- `dma_start_channel_mask(mask)`: the channels CPU-started by one mask
write, as a busy predicate. -/
def dma_start_channel_mask (mask : Nat) : Nat → Bool :=
  fun c => mask.testBit c

/-- Busy state right after `VGA_initDisplay` executes
`dma_start_channel_mask(1u << rgb_chan_0)`: exactly Channel A is counting. -/
def armBusy : Nat → Bool := dma_start_channel_mask (1 <<< rgb_chan_0)

/-- CHAIN_TO targets of the scanout pair, read off the configuration words
`c0` and `c1` the source wrote. -/
def scanout_chain_to (c : Nat) : Nat :=
  if c = rgb_chan_0 then c0.chain_to else if c = rgb_chan_1 then c1.chain_to else c

/-- One chain-completion event: channel `c` finishes (goes idle) and, when its
CHAIN_TO field names a different channel, that channel is triggered. -/
def dma_complete (chainTo : Nat → Nat) (busy : Nat → Bool) (c : Nat) : Nat → Bool :=
  fun x =>
    if chainTo c ≠ c ∧ x = chainTo c then true
    else if x = c then false
    else busy x

/-- Scanout-pair states reachable from the armed state by chain-completion
events of a currently-busy channel. -/
inductive ChainReach : (Nat → Bool) → Prop where
  | init : ChainReach armBusy
  | step (b : Nat → Bool) (c : Nat) : ChainReach b → b c = true →
      ChainReach (dma_complete scanout_chain_to b c)

theorem armBusy_eq (x : Nat) : armBusy x = decide (x = rgb_chan_0) := by
  cases x with
  | zero => rfl
  | succ n =>
    show Nat.testBit (1 <<< 0) (n + 1) = decide (n + 1 = rgb_chan_0)
    rw [show (1 <<< 0 : Nat) = 1 from rfl]
    simp [Nat.testBit_add_one, rgb_chan_0]

theorem dma_complete_flip_A (b : Nat → Bool) (hA : ∀ x, b x = decide (x = rgb_chan_0))
    (x : Nat) : dma_complete scanout_chain_to b rgb_chan_0 x = decide (x = rgb_chan_1) := by
  have hct : scanout_chain_to rgb_chan_0 = rgb_chan_1 := rfl
  simp only [dma_complete, hct]
  by_cases h1 : x = rgb_chan_1
  · rw [if_pos ⟨by decide, h1⟩]
    simp [h1]
  · rw [if_neg (fun hh => h1 hh.2)]
    by_cases h0 : x = rgb_chan_0
    · rw [if_pos h0]
      subst h0
      decide
    · rw [if_neg h0, hA x]
      simp [h0, h1]

theorem dma_complete_flip_B (b : Nat → Bool) (hB : ∀ x, b x = decide (x = rgb_chan_1))
    (x : Nat) : dma_complete scanout_chain_to b rgb_chan_1 x = decide (x = rgb_chan_0) := by
  have hct : scanout_chain_to rgb_chan_1 = rgb_chan_0 := rfl
  simp only [dma_complete, hct]
  by_cases h1 : x = rgb_chan_0
  · rw [if_pos ⟨by decide, h1⟩]
    simp [h1]
  · rw [if_neg (fun hh => h1 hh.2)]
    by_cases h0 : x = rgb_chan_1
    · rw [if_pos h0]
      subst h0
      decide
    · rw [if_neg h0, hB x]
      simp [h0, h1]

/-- Every reachable busy state is pointwise either "exactly A busy" or
"exactly B busy". -/
theorem chainReach_shape (b : Nat → Bool) (h : ChainReach b) :
    (∀ x, b x = decide (x = rgb_chan_0)) ∨ (∀ x, b x = decide (x = rgb_chan_1)) := by
  induction h with
  | init => exact Or.inl armBusy_eq
  | step b c hb hbc ih =>
    rcases ih with hA | hB
    · have hc : c = rgb_chan_0 := by
        have h1 := hA c
        rw [hbc] at h1
        exact of_decide_eq_true h1.symm
      subst hc
      exact Or.inr (dma_complete_flip_A b hA)
    · have hc : c = rgb_chan_1 := by
        have h1 := hB c
        rw [hbc] at h1
        exact of_decide_eq_true h1.symm
      subst hc
      exact Or.inl (dma_complete_flip_B b hB)

/-- Claim C5: in every state reachable after arming, exactly one of
{Channel A busy, Channel B busy} holds (never both idle, never both busy),
and each chain-completion event of the busy channel flips both channels'
busy bits — over any sequence of completion events the two channels strictly
alternate. -/
theorem chain_alternation (b : Nat → Bool) (h : ChainReach b) :
    ((b rgb_chan_0 = true ∧ b rgb_chan_1 = false) ∨
     (b rgb_chan_0 = false ∧ b rgb_chan_1 = true)) ∧
    (∀ c, b c = true →
      dma_complete scanout_chain_to b c rgb_chan_0 = !(b rgb_chan_0) ∧
      dma_complete scanout_chain_to b c rgb_chan_1 = !(b rgb_chan_1)) := by
  rcases chainReach_shape b h with hA | hB
  · constructor
    · exact Or.inl ⟨by rw [hA]; decide, by rw [hA]; decide⟩
    · intro c hc
      have hc0 : c = rgb_chan_0 := by
        have h1 := hA c
        rw [hc] at h1
        exact of_decide_eq_true h1.symm
      subst hc0
      rw [dma_complete_flip_A b hA, dma_complete_flip_A b hA, hA rgb_chan_0, hA rgb_chan_1]
      decide
  · constructor
    · exact Or.inr ⟨by rw [hB]; decide, by rw [hB]; decide⟩
    · intro c hc
      have hc1 : c = rgb_chan_1 := by
        have h1 := hB c
        rw [hc] at h1
        exact of_decide_eq_true h1.symm
      subst hc1
      rw [dma_complete_flip_B b hB, dma_complete_flip_B b hB, hB rgb_chan_0, hB rgb_chan_1]
      decide

theorem chain_alternation_witness :
    ((armBusy rgb_chan_0 = true ∧ armBusy rgb_chan_1 = false) ∨
     (armBusy rgb_chan_0 = false ∧ armBusy rgb_chan_1 = true)) ∧
    (∀ c, armBusy c = true →
      dma_complete scanout_chain_to armBusy c rgb_chan_0 = !(armBusy rgb_chan_0) ∧
      dma_complete scanout_chain_to armBusy c rgb_chan_1 = !(armBusy rgb_chan_1)) :=
  chain_alternation armBusy ChainReach.init

/-- Global driver state: byte RAM, the `address_pointer` cell — a distinct C
object from every buffer the public operations write, so modelled as its own
field — and the DMA channels' configuration registers. -/
structure VgaState where
  mem : Nat → Nat
  address_pointer : Nat
  chan_cfg : Nat → Option ChannelFullConfig

/-- The five public operations of the driver and their arguments. -/
inductive PublicOp where
  | initDisplay (vsync_pin hsync_pin r_pin pclk_pin : Nat)
  | memsetOp (dest val num valAddr : Nat)
  | memcpyOp (dest src num : Nat)
  | fillScreen (color valAddr : Nat)
  | drawFrame (src : Nat)

/-- Effect of one public operation on the driver state (`fbAddr` is the
address of `vga_data_array[0]`). `VGA_initDisplay` writes the two scanout
channel configurations (and `dma_start_channel_mask` then triggers channel A);
the bulk operations reconfigure-and-run the shared channel and mutate RAM; no
operation assigns `address_pointer`, which only `VGA_initDisplay`'s channel-B
configuration takes the address of. -/
def applyOp (fbAddr : Nat) (s : VgaState) : PublicOp → VgaState
  | PublicOp.initDisplay _ _ _ _ =>
      { s with chan_cfg := fun c =>
          if c = rgb_chan_0 then some { rgb_chan_0_configure fbAddr with started := true }
          else if c = rgb_chan_1 then some rgb_chan_1_configure
          else s.chan_cfg c }
  | PublicOp.memsetOp dest val num valAddr =>
      { s with mem := dma_memset s.mem dest val num valAddr,
               chan_cfg := fun c =>
                 if c = memcpy_dma_chan then some (memset_configure dest valAddr num)
                 else s.chan_cfg c }
  | PublicOp.memcpyOp dest src num =>
      { s with mem := dma_memcpy s.mem dest src num,
               chan_cfg := fun c =>
                 if c = memcpy_dma_chan then some (memcpy_configure dest src num)
                 else s.chan_cfg c }
  | PublicOp.fillScreen color valAddr =>
      { s with mem := VGA_fillScreen s.mem fbAddr valAddr color,
               chan_cfg := fun c =>
                 if c = memcpy_dma_chan then
                   some (memset_configure fbAddr valAddr TXCOUNT)
                 else s.chan_cfg c }
  | PublicOp.drawFrame src =>
      { s with mem := VGA_drawFrame s.mem fbAddr src,
               chan_cfg := fun c =>
                 if c = memcpy_dma_chan then some (memcpy_configure fbAddr src TXCOUNT)
                 else s.chan_cfg c }

def applyOps (fbAddr : Nat) (ops : List PublicOp) (s : VgaState) : VgaState :=
  ops.foldl (applyOp fbAddr) s

/-- State at program start: `vga_data_array` is zero-initialized static
storage, `char *address_pointer = &vga_data_array[0]` is its static
initializer, no DMA channel is configured yet. -/
def initialState (fbAddr : Nat) : VgaState :=
  { mem := fun _ => 0, address_pointer := fbAddr, chan_cfg := fun _ => none }

theorem applyOp_address_pointer (fbAddr : Nat) (s : VgaState) (op : PublicOp) :
    (applyOp fbAddr s op).address_pointer = s.address_pointer := by
  cases op <;> simp [applyOp]

theorem applyOps_address_pointer (fbAddr : Nat) (ops : List PublicOp) :
    ∀ s : VgaState, (applyOps fbAddr ops s).address_pointer = s.address_pointer := by
  induction ops with
  | nil => intro s; rfl
  | cons op ops ih =>
    intro s
    show (applyOps fbAddr ops (applyOp fbAddr s op)).address_pointer = s.address_pointer
    rw [ih (applyOp fbAddr s op), applyOp_address_pointer]

/-- Claim C8: starting from the initial state — where the static initializer
sets `address_pointer = &vga_data_array[0]`, a non-null address — after any
sequence of the public operations (`VGA_initDisplay`, `dma_memset`,
`dma_memcpy`, `VGA_fillScreen`, `VGA_drawFrame`) the `address_pointer` cell
still holds the framebuffer's first-byte address and is non-null: no public
operation mutates it; it is only read by the chain-reset channel. -/
theorem address_pointer_invariant (fbAddr : Nat) (hnn : fbAddr ≠ 0)
    (ops : List PublicOp) :
    (applyOps fbAddr ops (initialState fbAddr)).address_pointer = fbAddr ∧
    (applyOps fbAddr ops (initialState fbAddr)).address_pointer ≠ 0 := by
  have h := applyOps_address_pointer fbAddr ops (initialState fbAddr)
  exact ⟨h, by rw [h]; exact hnn⟩

theorem address_pointer_invariant_witness :
    (applyOps 4096 [PublicOp.fillScreen 7 100000, PublicOp.drawFrame 200000]
      (initialState 4096)).address_pointer = 4096 ∧
    (applyOps 4096 [PublicOp.fillScreen 7 100000, PublicOp.drawFrame 200000]
      (initialState 4096)).address_pointer ≠ 0 :=
  address_pointer_invariant 4096 (by decide)
    [PublicOp.fillScreen 7 100000, PublicOp.drawFrame 200000]
